import Mathlib

/-!
Verification development for the PTV_v3 web client core (src/web/logic.js,
src/web/data.js, src/web/ptv.js).

The embedding models the JavaScript core shallowly:
* instants are milliseconds since the epoch (`Int`), matching JS `Date`
  arithmetic;
* the shared `services` object is an association list with JS object
  semantics (assignment overwrites the value of an existing key in place,
  otherwise appends; `Object.values` is the list of values in that order);
* the JS `Set` `everActive` is modelled by a list of strings whose
  membership is the set's membership (`Set.has`); `new Set(keys).union(s)`
  becomes list concatenation, which has the same membership;
* each network call of the Signed API client (`PTVv3.call`) either returns
  a decoded response or throws; a call's outcome is an `Except` input to
  the refresh pass, and a thrown error propagates exactly as a JS
  exception does through the un-guarded `for` loop of `checkRoutes`.
-/

namespace PTV

/-- Milliseconds since the Unix epoch, the value space of JS Date arithmetic. -/
abbrev Millis := Int

/-- One direction entry of a connection (data.js `forward_direction` /
`reverse_direction`): direction id, origin stop id, destination stop id. -/
structure Direction where
  id : Nat
  origin : Nat
  destination : Nat
deriving DecidableEq

/-- Duration statistics of a connection (seconds). -/
structure Duration where
  min : Nat
  max : Nat
  avg : Nat
deriving DecidableEq

/-- One entry of the static `connections` catalog in src/web/data.js.
`walking` maps stop ids to walking seconds (an association list). -/
structure Connection where
  id : Nat
  type : Nat
  name : String
  number : String
  forward_direction : Direction
  reverse_direction : Option Direction
  walking : List (Nat × Nat)
  duration : Duration
deriving DecidableEq

/-- One run returned by the `/v3/runs/...` endpoint. Only the fields read by
logic.js are modelled; `vehicle_position` is `none` exactly when the JSON
field is `null`. -/
structure Run where
  run_ref : String
  direction_id : Nat
  vehicle_position : Option Unit
deriving DecidableEq

/-- Decoded payload of the runs call. `runs` is `none` when the key is
absent or null (the falsy case of `if (runs.runs)` in logic.js; an empty
array is truthy and is `some []`). -/
structure RunsResponse where
  runs : Option (List Run)
deriving DecidableEq

/-- One disruption record; logic.js only reads its `title`. -/
structure Disruption where
  title : String
deriving DecidableEq

/-- One departure returned by the `/v3/departures/...` endpoint.
`estimated_departure_utc` is `none` exactly when the JSON field is null. -/
structure Departure where
  run_ref : String
  estimated_departure_utc : Option Millis
  scheduled_departure_utc : Millis
deriving DecidableEq

/-- Decoded payload of the departures call. `departures` is `none` when the
key is absent or null; `disruptions` are the values of the `disruptions`
object. -/
structure DeparturesResponse where
  departures : Option (List Departure)
  disruptions : List Disruption
deriving DecidableEq

/-- The `health` sub-object of a Service (field order as written in
logic.js, which is the order `Object.values` yields). -/
structure Health where
  run_active : Bool
  has_estimated : Bool
  route_active : Bool
deriving DecidableEq

/-- One derived Service record as built by `checkRoutes` in logic.js. -/
structure Service where
  id : String
  run_ref : String
  route_id : Nat
  health : Health
  get_going_by : Millis
  arrive_by : Millis
  disruptions : List String
deriving DecidableEq

/-- The shared `services` JS object: an insertion-ordered string-keyed map. -/
abbrev ServiceTable := List (String × Service)

/-- JS property assignment `m[k] = v`: overwrite the first (only) binding of
`k` in place, otherwise append a new binding at the end. -/
def objSet : ServiceTable → String → Service → ServiceTable
  | [], k, v => [(k, v)]
  | p :: m, k, v => if p.1 = k then (k, v) :: m else p :: objSet m k v

/-- JS property read `m[k]`: the value bound to `k`, if any. -/
def objGet : ServiceTable → String → Option Service
  | [], _ => none
  | p :: m, k => if p.1 = k then some p.2 else objGet m k

/-- The process-wide mutable state of logic.js: the `services` table and the
`everActive` set (modelled by a list, membership-wise). -/
structure RefreshState where
  services : ServiceTable
  everActive : List String
deriving DecidableEq

/-- The composite id string built at logic.js line 62:
`routeId-directionId-stopId-index`. -/
def mkId (routeId directionId stopId index : Nat) : String :=
  toString routeId ++ "-" ++ toString directionId ++ "-" ++ toString stopId ++
    "-" ++ toString index

/-- logic.js line 41: the runs whose `vehicle_position` is non-null and whose
`direction_id` equals the connection's forward direction. -/
def activeRunsOf (runs : List Run) (directionId : Nat) : List Run :=
  runs.filter (fun run => run.vehicle_position.isSome && run.direction_id == directionId)

/-- The Service object assembled in the body of the departures loop
(logic.js lines 47-77). `activeRunRefs` are the keys of `activeRuns`;
`everActive` is the set as already updated at line 42. -/
def buildService (connection : Connection) (buffer : Int) (routeId : Nat)
    (activeRunRefs : List String) (everActive : List String)
    (disruptions : List Disruption) (index : Nat) (departure : Departure) :
    Service :=
  let directionId := connection.forward_direction.id
  let stopId := connection.forward_direction.origin
  let routeActive : Bool := decide (0 < activeRunRefs.length)
  let runActive : Bool := everActive.contains departure.run_ref
  let hasEstimated : Bool := departure.estimated_departure_utc.isSome
  let departureTime : Millis :=
    match departure.estimated_departure_utc with
    | some t => t
    | none => departure.scheduled_departure_utc
  let walkBefore : Int := ((connection.walking.lookup stopId).getD 0 : Nat)
  let getGoingBy : Millis := departureTime - walkBefore * 1000 - buffer * 1000
  let tripDuration : Int := (connection.duration.avg : Int) * 1000
  let walkAfter : Int :=
    ((connection.walking.lookup connection.forward_direction.destination).getD 0 : Nat) * 1000
  let arriveBy : Millis := departureTime + tripDuration + walkAfter
  { id := mkId routeId directionId stopId index
    run_ref := departure.run_ref
    route_id := connection.id
    health :=
      { run_active := runActive
        has_estimated := hasEstimated
        route_active := routeActive }
    get_going_by := getGoingBy
    arrive_by := arriveBy
    disruptions := disruptions.map (fun d => d.title.trim) }

/-- One iteration of the `for (const [routeId, connection] of ...)` loop of
`checkRoutes` (logic.js lines 21-80), given the two decoded responses:
derive `activeRuns`, union its keys into `everActive` (only when the `runs`
key is present, mirroring `if (runs.runs)`), then write one Service per
departure into the table (only when the `departures` key is present). -/
def processConnection (buffer : Int) (routeId : Nat) (connection : Connection)
    (runsResp : RunsResponse) (depsResp : DeparturesResponse)
    (st : RefreshState) : RefreshState :=
  let directionId := connection.forward_direction.id
  let stopId := connection.forward_direction.origin
  let activeRuns : List Run :=
    match runsResp.runs with
    | some rs => activeRunsOf rs directionId
    | none => []
  let everActive : List String :=
    match runsResp.runs with
    | some _ => activeRuns.map Run.run_ref ++ st.everActive
    | none => st.everActive
  let services : ServiceTable :=
    match depsResp.departures with
    | some deps =>
      deps.enum.foldl
        (fun svcs p =>
          objSet svcs (mkId routeId directionId stopId p.1)
            (buildService connection buffer routeId (activeRuns.map Run.run_ref)
              everActive depsResp.disruptions p.1 p.2))
        st.services
    | none => st.services
  ⟨services, everActive⟩

/-- The outcome of the two Signed API client calls issued for one
connection: each call either returns its decoded payload or throws. -/
structure ConnInput where
  runsResult : Except String RunsResponse
  depsResult : Except String DeparturesResponse

/-- One refresh pass input: the catalog entries in traversal order, paired
with the outcomes of their two calls. -/
abbrev PassInput := List ((Nat × Connection) × ConnInput)

/-- The connection loop of `checkRoutes` with JS exception semantics: the
loop body has no try/catch, so the first throwing `await ptv.call` rejects
the whole `checkRoutes` promise — the state mutations made so far persist,
the failing and all later connections are left unprocessed, and the error
is returned as the rejection reason. -/
def checkRoutesAux (buffer : Int) : PassInput → RefreshState → RefreshState × Option String
  | [], st => (st, none)
  | (entry, inp) :: rest, st =>
    match inp.runsResult with
    | .error e => (st, some e)
    | .ok runsResp =>
      match inp.depsResult with
      | .error e => (st, some e)
      | .ok depsResp =>
        checkRoutesAux buffer rest
          (processConnection buffer entry.1 entry.2 runsResp depsResp st)

/-- The state after one refresh pass (`checkRoutes` invocation). -/
def runPass (buffer : Int) (inputs : PassInput) (st : RefreshState) : RefreshState :=
  (checkRoutesAux buffer inputs st).1

/-- The state after a sequence of refresh passes (successive `setInterval`
firings of `checkRoutes`). -/
def runPasses (buffer : Int) (passes : List PassInput) (st : RefreshState) : RefreshState :=
  passes.foldl (fun s p => runPass buffer p s) st

/-- The `(idString, Service)` writes one connection iteration performs, in
order (logic.js lines 47-77, the `services[idString] = ...` assignments).
`processConnection` folds exactly these writes over the table. -/
def writesOf (buffer : Int) (routeId : Nat) (connection : Connection)
    (runsResp : RunsResponse) (depsResp : DeparturesResponse)
    (st : RefreshState) : List (String × Service) :=
  let directionId := connection.forward_direction.id
  let stopId := connection.forward_direction.origin
  let activeRuns : List Run :=
    match runsResp.runs with
    | some rs => activeRunsOf rs directionId
    | none => []
  let everActive : List String :=
    match runsResp.runs with
    | some _ => activeRuns.map Run.run_ref ++ st.everActive
    | none => st.everActive
  match depsResp.departures with
  | some deps =>
    deps.enum.map
      (fun p =>
        (mkId routeId directionId stopId p.1,
          buildService connection buffer routeId (activeRuns.map Run.run_ref)
            everActive depsResp.disruptions p.1 p.2))
  | none => []

/-- The Services built during one refresh pass, across its connections, with
the same early-exit-on-throw semantics as `checkRoutesAux`. -/
def passWrites (buffer : Int) : PassInput → RefreshState → List (String × Service)
  | [], _ => []
  | (entry, inp) :: rest, st =>
    match inp.runsResult with
    | .error _ => []
    | .ok runsResp =>
      match inp.depsResult with
      | .error _ => []
      | .ok depsResp =>
        writesOf buffer entry.1 entry.2 runsResp depsResp st ++
          passWrites buffer rest
            (processConnection buffer entry.1 entry.2 runsResp depsResp st)

/-- The last value written at key `k` by a sequence of writes, if any. -/
def lastWrite : List (String × Service) → String → Option Service
  | [], _ => none
  | kv :: rest, k =>
    match lastWrite rest k with
    | some v => some v
    | none => if kv.1 = k then some kv.2 else none

/-- The tick-loop body `updateTable` (logic.js lines 83-124), restricted to
the list of Services it renders: sort all table values ascending by
`arrive_by`, then skip every Service whose `get_going_by − now` has fallen
below `−buffer` seconds. -/
def updateTable (services : ServiceTable) (now : Millis) (buffer : Int) : List Service :=
  let sortedServices :=
    (services.map Prod.snd).mergeSort (fun a b => decide (a.arrive_by ≤ b.arrive_by))
  sortedServices.filter (fun service => !decide (service.get_going_by - now < -buffer * 1000))

/-- `Object.values(service.health)` (insertion order of the literal). -/
def healthValues (h : Health) : List Bool :=
  [h.run_active, h.has_estimated, h.route_active]

/-- The renderer's health score (logic.js line 100): count of true flags. -/
def healthScore (h : Health) : Nat :=
  (healthValues h).foldl (fun acc val => acc + if val then 1 else 0) 0

/-- The legend of health symbols (logic.js line 89). -/
def legend : List String := ["⚫", "🔴", "🟡", "🟢"]

/-- Scheduler events for the refresh loop set up at logic.js line 131:
an interval tick fires `checkRoutes`, and an in-flight `checkRoutes`
invocation eventually settles. -/
inductive SchedEvent where
  | timerFire
  | refreshComplete
deriving DecidableEq

/-- Refresh-loop step relation. The state counts in-flight `checkRoutes`
invocations. `setInterval(checkRoutes, 30000, services)` invokes
`checkRoutes` on every tick with no re-entrancy guard, so `timerFire` is
enabled unconditionally; `refreshComplete` settles one in-flight
invocation and is impossible when none is in flight. -/
def schedStep : Nat → SchedEvent → Option Nat
  | n, .timerFire => some (n + 1)
  | 0, .refreshComplete => none
  | n + 1, .refreshComplete => some n

/-- Run the refresh-loop step relation over a sequence of events. -/
def schedRun : List SchedEvent → Nat → Option Nat
  | [], n => some n
  | e :: es, n =>
    match schedStep n e with
    | some m => schedRun es m
    | none => none

/-- The static `connections` catalog of src/web/data.js, as `(key, value)`
entries in the order `Object.entries` yields them (integer-like keys are
enumerated in ascending numeric order). -/
def connectionsList : List (Nat × Connection) :=
  [ (4,
     { id := 4, type := 0, name := "Cranbourne", number := "Train"
       forward_direction := { id := 4, origin := 1150, destination := 1099 }
       reverse_direction := some { id := 1, origin := 1099, destination := 1150 }
       walking := [(1150, 821), (1099, 430)]
       duration := { min := 747, max := 1047, avg := 751 } }),
    (11,
     { id := 11, type := 0, name := "Pakenham", number := "Train"
       forward_direction := { id := 10, origin := 1150, destination := 1099 }
       reverse_direction := some { id := 1, origin := 1099, destination := 1150 }
       walking := [(1150, 821), (1099, 430)]
       duration := { min := 747, max := 1047, avg := 751 } }),
    (8922,
     { id := 8922, type := 2
       name := "Dandenong - Chadstone via North Dandenong & Oakleigh"
       number := "862"
       forward_direction := { id := 260, origin := 10005, destination := 33430 }
       reverse_direction := none
       walking := [(10005, 588), (33430, 430)]
       duration := { min := 600, max := 960, avg := 750 } }),
    (8924,
     { id := 8924, type := 2
       name := "Dandenong - Chadstone via Princes Highway & Oakleigh"
       number := "802"
       forward_direction := { id := 260, origin := 10005, destination := 33430 }
       reverse_direction := none
       walking := [(10005, 588), (33430, 430)]
       duration := { min := 660, max := 960, avg := 802 } }),
    (8934,
     { id := 8934, type := 2
       name := "Dandenong - Chadstone via Wheelers Hill & Oakleigh"
       number := "804"
       forward_direction := { id := 260, origin := 10005, destination := 33430 }
       reverse_direction := none
       walking := [(10005, 588), (33430, 430)]
       duration := { min := 600, max := 1020, avg := 808 } }),
    (12753,
     { id := 12753, type := 2
       name := "Stud Park SC (Rowville) - Caulfield via Monash University & Chadstone (SMARTBUS Service)"
       number := "900"
       forward_direction := { id := 293, origin := 16339, destination := 33430 }
       reverse_direction := some { id := 294, origin := 33430, destination := 16339 }
       walking := [(16339, 740), (33430, 430)]
       duration := { min := 600, max := 1140, avg := 858 } }),
    (13067,
     { id := 13067, type := 2
       name := "Elwood - Monash University via Gardenvale & Ormond & Huntingdale"
       number := "630"
       forward_direction := { id := 188, origin := 22875, destination := 33430 }
       reverse_direction := some { id := 189, origin := 33430, destination := 18098 }
       walking := [(22875, 571), (33430, 430), (18098, 617)]
       duration := { min := 480, max := 960, avg := 620 } }),
    (13271,
     { id := 13271, type := 2
       name := "Oakleigh - Box Hill via Clayton & Monash University & Mt Waverley"
       number := "733"
       forward_direction := { id := 32, origin := 22833, destination := 33430 }
       reverse_direction := some { id := 184, origin := 33430, destination := 22833 }
       walking := [(22833, 115), (33430, 430)]
       duration := { min := 1200, max := 1740, avg := 1468 } }),
    (13820,
     { id := 13820, type := 2
       name := "Dandenong - Chadstone via Princes Highway & Oakleigh"
       number := "800"
       forward_direction := { id := 260, origin := 10005, destination := 10016 }
       reverse_direction := none
       walking := [(10005, 588), (10016, 553)]
       duration := { min := 660, max := 1020, avg := 786 } }),
    (14930,
     { id := 14930, type := 2
       name := "Ringwood - Chadstone SC via Vermont South & Glen Waverley & Oakleigh"
       number := "742"
       forward_direction := { id := 55, origin := 16339, destination := 13496 }
       reverse_direction := some { id := 181, origin := 13496, destination := 16339 }
       walking := [(16339, 740), (13496, 519)]
       duration := { min := 840, max := 1080, avg := 944 } }) ]

/-- Decides whether two character lists differ at some common position (a
position below both lengths). When they do, no pair of extensions can make
them equal, which separates composite ids of distinct route keys. -/
def diffWithin : List Char → List Char → Bool
  | a :: t1, b :: t2 => decide (a ≠ b) || diffWithin t1 t2
  | _, _ => false

namespace Fix

/-- Catalog entry 13067 (route 630), used as a concrete poll fixture. -/
def conn13067 : Connection := (connectionsList.get ⟨6, by decide⟩).2

/-- Catalog entry 11 (Pakenham train), used as a concrete poll fixture. -/
def connTrain11 : Connection := (connectionsList.get ⟨1, by decide⟩).2

/-- A departure with no estimate, scheduled at `t` ms, on run `r`. -/
def dep (r : String) (t : Millis) : Departure := ⟨r, none, t⟩

/-- The initial state of logic.js lines 126-127: empty table, empty set. -/
def stEmpty : RefreshState := ⟨[], []⟩

/-- State after a poll of connection 13067 that returned two departures. -/
def stTwoSlots : RefreshState :=
  processConnection 120 13067 conn13067 ⟨some []⟩
    ⟨some [dep "ra" 1000000, dep "rb" 2000000], []⟩ stEmpty

/-- A run on direction 188 carrying a vehicle position. -/
def runR1 : Run := ⟨"r1", 188, some ()⟩

/-- State after a poll of connection 13067 that observed run r1 active. -/
def stR1Seen : RefreshState :=
  processConnection 120 13067 conn13067 ⟨some [runR1]⟩ ⟨some [], []⟩ stEmpty

/-- A two-connection refresh pass whose first connection's runs call throws. -/
def passFail : PassInput :=
  [ ((13067, conn13067), ⟨Except.error "network", Except.ok ⟨some [], []⟩⟩),
    ((11, connTrain11), ⟨Except.ok ⟨some []⟩, Except.ok ⟨some [dep "rd" 5000000], []⟩⟩) ]

/-- The same pass with the first connection's calls succeeding. -/
def passOk : PassInput :=
  [ ((13067, conn13067), ⟨Except.ok ⟨some []⟩, Except.ok ⟨some [], []⟩⟩),
    ((11, connTrain11), ⟨Except.ok ⟨some []⟩, Except.ok ⟨some [dep "rd" 5000000], []⟩⟩) ]

/-- A synthetic connection realising the worked example of spec section 8:
walk before 300 s, walk after 430 s, average trip 600 s. -/
def connSpec : Connection :=
  { id := 1, type := 2, name := "spec example", number := "1"
    forward_direction := { id := 7, origin := 100, destination := 200 }
    reverse_direction := none
    walking := [(100, 300), (200, 430)]
    duration := { min := 500, max := 700, avg := 600 } }

/-- The spec section 8 departure: scheduled 08:00:00, no estimate. -/
def depSpec : Departure := ⟨"rx", none, 28800000⟩

/-- A single-connection pass observing run r1 active and one departure on r1. -/
def passR1Active : PassInput :=
  [ ((13067, conn13067),
      ⟨Except.ok ⟨some [runR1]⟩, Except.ok ⟨some [dep "r1" 1000000], []⟩⟩) ]

/-- A single-connection pass with no active runs and one departure on r1. -/
def passR1Quiet : PassInput :=
  [ ((13067, conn13067),
      ⟨Except.ok ⟨some []⟩, Except.ok ⟨some [dep "r1" 4000000], []⟩⟩) ]

/-- The first catalog entry in traversal order: route 4 (Cranbourne). -/
def entry0 : Nat × Connection := connectionsList.get ⟨0, by decide⟩

/-- The second catalog entry in traversal order: route 11 (Pakenham). -/
def entry1 : Nat × Connection := connectionsList.get ⟨1, by decide⟩

end Fix

/-! ## Table update lemmas -/

/-- Reading after a JS property assignment: the assigned key now holds the
assigned value, every other key is untouched. -/
lemma objGet_objSet (m : ServiceTable) (k k' : String) (v : Service) :
    objGet (objSet m k v) k' = if k' = k then some v else objGet m k' := by
  induction m with
  | nil =>
    by_cases h : k' = k
    · simp [objSet, objGet, h]
    · simp only [objSet, objGet, if_neg h]
      exact if_neg (fun hh => h hh.symm)
  | cons p m ih =>
    by_cases hp : p.1 = k
    · by_cases hk : k' = k
      · simp [objSet, objGet, hp, hk]
      · have hk2 : ¬k = k' := fun h => hk h.symm
        simp [objSet, objGet, hp, hk, hk2]
    · by_cases hk : k' = k
      · subst hk
        simp [objSet, objGet, hp, ih]
      · by_cases hpk : p.1 = k' <;> simp [objSet, objGet, hp, hpk, ih, hk]

/-- Reading a key after folding a list of assignments over the table: the
last assignment at that key wins, and a key never assigned is unchanged. -/
lemma objGet_foldl_objSet (writes : List (String × Service)) (m : ServiceTable)
    (k : String) :
    objGet (writes.foldl (fun t kv => objSet t kv.1 kv.2) m) k =
      match lastWrite writes k with
      | some v => some v
      | none => objGet m k := by
  induction writes generalizing m with
  | nil => rfl
  | cons kv rest ih =>
    simp only [List.foldl_cons, lastWrite, ih]
    cases h : lastWrite rest k with
    | some v => rfl
    | none =>
      rw [objGet_objSet]
      by_cases hk : kv.1 = k <;> simp [hk]
      intro h; exact absurd h.symm hk

/-- The table produced by one connection iteration is exactly its write list
folded over the previous table. -/
lemma processConnection_services (buffer : Int) (routeId : Nat)
    (connection : Connection) (runsResp : RunsResponse)
    (depsResp : DeparturesResponse) (st : RefreshState) :
    (processConnection buffer routeId connection runsResp depsResp st).services =
      (writesOf buffer routeId connection runsResp depsResp st).foldl
        (fun t kv => objSet t kv.1 kv.2) st.services := by
  cases hd : depsResp.departures <;>
    cases hr : runsResp.runs <;>
      simp [processConnection, writesOf, hd, hr, List.foldl_map]

/-- Pointwise description of the table after one connection iteration: an
upsert of the iteration's writes, removing nothing. -/
lemma processConnection_objGet (buffer : Int) (routeId : Nat)
    (connection : Connection) (runsResp : RunsResponse)
    (depsResp : DeparturesResponse) (st : RefreshState) (k : String) :
    objGet (processConnection buffer routeId connection runsResp depsResp st).services k =
      match lastWrite (writesOf buffer routeId connection runsResp depsResp st) k with
      | some v => some v
      | none => objGet st.services k := by
  rw [processConnection_services, objGet_foldl_objSet]

/-- A key none of the writes mention is not the last write of anything. -/
lemma lastWrite_eq_none {writes : List (String × Service)} {k : String}
    (h : ∀ kv ∈ writes, kv.1 ≠ k) : lastWrite writes k = none := by
  induction writes with
  | nil => rfl
  | cons kv rest ih =>
    simp only [lastWrite, ih (fun x hx => h x (List.mem_cons_of_mem _ hx))]
    simp [h kv (List.mem_cons_self _ _)]

/-- Set-membership reading of the JS `Set.has` test. -/
lemma contains_true_iff (l : List String) (a : String) :
    l.contains a = true ↔ a ∈ l := by
  simp [List.contains, List.elem_eq_mem]

/-- The everActive set after one connection iteration: unchanged when the
runs key was absent, otherwise the current active run refs prepended. -/
lemma processConnection_everActive (buffer : Int) (routeId : Nat)
    (connection : Connection) (runsResp : RunsResponse)
    (depsResp : DeparturesResponse) (st : RefreshState) :
    (processConnection buffer routeId connection runsResp depsResp st).everActive =
      match runsResp.runs with
      | some rs =>
        (activeRunsOf rs connection.forward_direction.id).map Run.run_ref ++ st.everActive
      | none => st.everActive := by
  cases hr : runsResp.runs <;> simp [processConnection, hr]

/-- One connection iteration never removes a member of everActive. -/
lemma everActive_mono_processConnection (buffer : Int) (routeId : Nat)
    (connection : Connection) (runsResp : RunsResponse)
    (depsResp : DeparturesResponse) {st : RefreshState} {r : String}
    (h : r ∈ st.everActive) :
    r ∈ (processConnection buffer routeId connection runsResp depsResp st).everActive := by
  rw [processConnection_everActive]
  cases hr : runsResp.runs with
  | none => exact h
  | some rs => exact List.mem_append_right _ h

/-- A whole refresh pass, including an aborted one, never removes a member
of everActive. -/
lemma everActive_mono_checkRoutesAux (buffer : Int) (inputs : PassInput)
    {st : RefreshState} {r : String} (h : r ∈ st.everActive) :
    r ∈ (checkRoutesAux buffer inputs st).1.everActive := by
  induction inputs generalizing st with
  | nil => exact h
  | cons ei rest ih =>
    obtain ⟨entry, rres, dres⟩ := ei
    cases rres with
    | error e => exact h
    | ok rr =>
      cases dres with
      | error e => exact h
      | ok dr =>
        exact ih (everActive_mono_processConnection buffer entry.1 entry.2 rr dr h)

/-- A sequence of refresh passes never removes a member of everActive. -/
lemma everActive_mono_runPasses (buffer : Int) (passes : List PassInput)
    {st : RefreshState} {r : String} (h : r ∈ st.everActive) :
    r ∈ (runPasses buffer passes st).everActive := by
  induction passes generalizing st with
  | nil => exact h
  | cons p rest ih => exact ih (everActive_mono_checkRoutesAux buffer p h)

/-- Every Service a connection iteration writes has its run_active flag
equal to the `Set.has` test of the updated everActive set on its run ref. -/
lemma writesOf_run_active (buffer : Int) (routeId : Nat)
    (connection : Connection) (runsResp : RunsResponse)
    (depsResp : DeparturesResponse) (st : RefreshState)
    {kv : String × Service}
    (h : kv ∈ writesOf buffer routeId connection runsResp depsResp st) :
    kv.2.health.run_active =
      (processConnection buffer routeId connection runsResp depsResp st).everActive.contains
        kv.2.run_ref := by
  cases hd : depsResp.departures with
  | none => simp [writesOf, hd] at h
  | some deps =>
    simp only [writesOf, hd, List.mem_map] at h
    obtain ⟨p, hp, rfl⟩ := h
    cases hr : runsResp.runs <;> simp [buildService, processConnection, hr, hd]

/-- A Service built somewhere in a pass with run_active true has its run ref
in the pass's final everActive set. -/
lemma passWrites_run_active_mem (buffer : Int) (inputs : PassInput)
    {st : RefreshState} {kv : String × Service}
    (h : kv ∈ passWrites buffer inputs st)
    (ha : kv.2.health.run_active = true) :
    kv.2.run_ref ∈ (checkRoutesAux buffer inputs st).1.everActive := by
  induction inputs generalizing st with
  | nil => simp [passWrites] at h
  | cons ei rest ih =>
    obtain ⟨entry, rres, dres⟩ := ei
    cases rres with
    | error e => simp [passWrites] at h
    | ok rr =>
      cases dres with
      | error e => simp [passWrites] at h
      | ok dr =>
        simp only [passWrites, List.mem_append] at h
        rcases h with h | h
        · have heq := writesOf_run_active buffer entry.1 entry.2 rr dr st h
          rw [ha] at heq
          exact everActive_mono_checkRoutesAux buffer rest
            ((contains_true_iff _ _).mp heq.symm)
        · exact ih h

/-- Once a run ref is in everActive, every Service a pass builds on that run
gets run_active true. -/
lemma passWrites_run_active_of_everActive (buffer : Int) (inputs : PassInput)
    {st : RefreshState} {r : String} (hr : r ∈ st.everActive)
    {kv : String × Service} (h : kv ∈ passWrites buffer inputs st)
    (href : kv.2.run_ref = r) : kv.2.health.run_active = true := by
  induction inputs generalizing st with
  | nil => simp [passWrites] at h
  | cons ei rest ih =>
    obtain ⟨entry, rres, dres⟩ := ei
    cases rres with
    | error e => simp [passWrites] at h
    | ok rr =>
      cases dres with
      | error e => simp [passWrites] at h
      | ok dr =>
        simp only [passWrites, List.mem_append] at h
        rcases h with h | h
        · rw [writesOf_run_active buffer entry.1 entry.2 rr dr st h, href]
          exact (contains_true_iff _ _).mpr
            (everActive_mono_processConnection buffer entry.1 entry.2 rr dr hr)
        · exact ih (everActive_mono_processConnection buffer entry.1 entry.2 rr dr hr) h

/-! ## C1: refresh replacement semantics -/

/-- C1 counterexample: a refresh poll of connection 13067 that returns one
departure after a previous poll returned two leaves the previous poll's
slot-1 entry in the table (first conjunct), although this poll's writes do
not touch that id (second conjunct). The claim says the connection's
entries after the poll are precisely the Services built from this poll's
departures, which would require the slot-1 entry to be gone. -/
theorem stale_slot_persists :
    (objGet (processConnection 120 13067 Fix.conn13067 ⟨some []⟩
        ⟨some [Fix.dep "rc" 3000000], []⟩ Fix.stTwoSlots).services
      (mkId 13067 188 22875 1)).isSome = true ∧
    lastWrite (writesOf 120 13067 Fix.conn13067 ⟨some []⟩
        ⟨some [Fix.dep "rc" 3000000], []⟩ Fix.stTwoSlots)
      (mkId 13067 188 22875 1) = none := by
  constructor <;> decide

/-- C1 (amended): a refresh poll for a connection upserts the freshly
computed Services at their composite ids and removes nothing: at every key,
the table after the poll holds the last Service this poll wrote there if it
wrote any, and otherwise the key's previous entry — in particular stale
slots from a longer previous poll persist. -/
theorem refresh_is_upsert (buffer : Int) (routeId : Nat)
    (connection : Connection) (runsResp : RunsResponse)
    (depsResp : DeparturesResponse) (st : RefreshState) (k : String) :
    objGet (processConnection buffer routeId connection runsResp depsResp st).services k =
      match lastWrite (writesOf buffer routeId connection runsResp depsResp st) k with
      | some v => some v
      | none => objGet st.services k :=
  processConnection_objGet buffer routeId connection runsResp depsResp st k

/-! ## C2: failure handling in the refresh pass -/

/-- C2 counterexample: in a two-connection pass whose first connection's
runs call throws, the second connection's slot-0 entry is absent from the
final table (first conjunct) although the identical pass with the first
connection succeeding does produce it (second conjunct), and the error
escapes the loop as the rejection of the `checkRoutes` promise (third
conjunct). The claim says processing of subsequent connections still
executes and no unhandled fault arises. -/
theorem failure_skips_subsequent_connections :
    objGet (checkRoutesAux 120 Fix.passFail ⟨[], []⟩).1.services (mkId 11 10 1150 0) = none ∧
    (objGet (checkRoutesAux 120 Fix.passOk ⟨[], []⟩).1.services (mkId 11 10 1150 0)).isSome = true ∧
    (checkRoutesAux 120 Fix.passFail ⟨[], []⟩).2 = some "network" := by
  exact ⟨by decide, by decide, by decide⟩

/-- C2 (amended): the loop body of `checkRoutes` has no exception handler,
so the first failing Signed API call of a pass aborts the remainder of that
pass: the state at the failing connection is returned unchanged — the
failing connection's and all subsequent connections' Service entries are
left exactly as they were — and the error surfaces as the rejection reason
of the `checkRoutes` promise (unhandled at both call sites; the interval
still fires the next pass). Connections processed before the failure keep
their freshly written entries. -/
theorem refresh_stops_at_first_failure (buffer : Int) (entry : Nat × Connection)
    (inp : ConnInput) (rest : PassInput) (st : RefreshState) (e : String)
    (h : inp.runsResult = Except.error e ∨
        ∃ rr, inp.runsResult = Except.ok rr ∧ inp.depsResult = Except.error e) :
    checkRoutesAux buffer ((entry, inp) :: rest) st = (st, some e) := by
  obtain ⟨rres, dres⟩ := inp
  rcases h with h | ⟨rr, h1, h2⟩
  · replace h : rres = Except.error e := h
    subst h; rfl
  · replace h1 : rres = Except.ok rr := h1
    replace h2 : dres = Except.error e := h2
    subst h1; subst h2; rfl

/-- Witness for C2 (amended) at the concrete failing pass. -/
theorem refresh_stops_at_first_failure_witness :
    checkRoutesAux 120 Fix.passFail ⟨[], []⟩ = (⟨[], []⟩, some "network") :=
  refresh_stops_at_first_failure 120 (13067, Fix.conn13067)
    ⟨Except.error "network", Except.ok ⟨some [], []⟩⟩
    [((11, Fix.connTrain11),
      ⟨Except.ok ⟨some []⟩, Except.ok ⟨some [Fix.dep "rd" 5000000], []⟩⟩)]
    ⟨[], []⟩ "network" (Or.inl rfl)

/-! ## C3: the run_active flag -/

/-- C3 counterexample: after a poll that saw run r1 active, a second poll of
the same connection whose runs response lists no runs at all builds the
departure on r1 with run_active true (first conjunct) even though that
second poll's activeRuns set is empty (second conjunct). The claim says
run_active holds iff the run is in the current poll's activeRuns. -/
theorem runActive_beyond_current_poll :
    (objGet (processConnection 120 13067 Fix.conn13067 ⟨some []⟩
        ⟨some [Fix.dep "r1" 4000000], []⟩ Fix.stR1Seen).services
      (mkId 13067 188 22875 0)).map (fun s => s.health.run_active) = some true ∧
    activeRunsOf [] 188 = [] := by
  exact ⟨by decide, by decide⟩

/-- C3 (amended): a Service built during a refresh poll has run_active true
iff its departure's run ref belongs to everActive as updated by this poll —
the accumulated set of run refs ever observed with a vehicle position in
the matching direction, not merely this poll's activeRuns. -/
theorem runActive_iff_everActive (buffer : Int) (routeId : Nat)
    (connection : Connection) (runsResp : RunsResponse)
    (depsResp : DeparturesResponse) (st : RefreshState) (k : String) (s : Service)
    (h : (k, s) ∈ writesOf buffer routeId connection runsResp depsResp st) :
    s.health.run_active = true ↔
      s.run_ref ∈ (processConnection buffer routeId connection runsResp depsResp st).everActive := by
  have heq := writesOf_run_active buffer routeId connection runsResp depsResp st h
  simp only at heq
  rw [heq]
  exact contains_true_iff _ _

/-- Witness for C3 (amended): the single write of the quiet second poll. -/
theorem runActive_iff_everActive_witness :
    ((mkId 13067 188 22875 0,
        buildService Fix.conn13067 120 13067 [] Fix.stR1Seen.everActive []
          0 (Fix.dep "r1" 4000000)) ∈
      writesOf 120 13067 Fix.conn13067 ⟨some []⟩
        ⟨some [Fix.dep "r1" 4000000], []⟩ Fix.stR1Seen) ∧
    ((buildService Fix.conn13067 120 13067 [] Fix.stR1Seen.everActive []
          0 (Fix.dep "r1" 4000000)).health.run_active = true ↔
      (buildService Fix.conn13067 120 13067 [] Fix.stR1Seen.everActive []
          0 (Fix.dep "r1" 4000000)).run_ref ∈
        (processConnection 120 13067 Fix.conn13067 ⟨some []⟩
          ⟨some [Fix.dep "r1" 4000000], []⟩ Fix.stR1Seen).everActive) :=
  ⟨by decide,
    runActive_iff_everActive 120 13067 Fix.conn13067 ⟨some []⟩
      ⟨some [Fix.dep "r1" 4000000], []⟩ Fix.stR1Seen (mkId 13067 188 22875 0)
      (buildService Fix.conn13067 120 13067 [] Fix.stR1Seen.everActive []
        0 (Fix.dep "r1" 4000000)) (by decide)⟩

/-! ## C7: everActive is monotone -/

/-- C7: the ever-active set is monotonically non-decreasing: a run observed
with a vehicle position in the connection's forward direction enters
everActive during that iteration (first conjunct), and no refresh pass ever
removes an element — membership persists through every later sequence of
passes, successful or aborted (second conjunct). -/
theorem everActive_monotone (buffer : Int) :
    (∀ (routeId : Nat) (connection : Connection) (rs : List Run)
        (depsResp : DeparturesResponse) (st : RefreshState) (run : Run),
        run ∈ activeRunsOf rs connection.forward_direction.id →
        run.run_ref ∈
          (processConnection buffer routeId connection ⟨some rs⟩ depsResp st).everActive) ∧
    (∀ (passes : List PassInput) (st : RefreshState) (r : String),
        r ∈ st.everActive → r ∈ (runPasses buffer passes st).everActive) := by
  constructor
  · intro routeId connection rs depsResp st run hrun
    rw [processConnection_everActive]
    exact List.mem_append_left _ (List.mem_map_of_mem _ hrun)
  · intro passes st r h
    exact everActive_mono_runPasses buffer passes h

/-- Witness for C7 at a concrete run observation and a concrete pass. -/
theorem everActive_monotone_witness :
    (Fix.runR1 ∈ activeRunsOf [Fix.runR1] Fix.conn13067.forward_direction.id ∧
      Fix.runR1.run_ref ∈
        (processConnection 120 13067 Fix.conn13067 ⟨some [Fix.runR1]⟩
          ⟨some [], []⟩ Fix.stEmpty).everActive) ∧
    ("r1" ∈ (⟨[], ["r1"]⟩ : RefreshState).everActive ∧
      "r1" ∈ (runPasses 120 [Fix.passR1Quiet] ⟨[], ["r1"]⟩).everActive) :=
  ⟨⟨by decide,
      (everActive_monotone 120).1 13067 Fix.conn13067 [Fix.runR1] ⟨some [], []⟩
        Fix.stEmpty Fix.runR1 (by decide)⟩,
    ⟨by decide,
      (everActive_monotone 120).2 [Fix.passR1Quiet] ⟨[], ["r1"]⟩ "r1" (by decide)⟩⟩

/-! ## C9: run_active is sticky per run ref -/

/-- C9: once some refresh pass builds a Service on run ref r with run_active
true, every Service built by any later pass on run ref r also has
run_active true, because run_active is evaluated against the never-shrinking
everActive set rather than only the current poll's vehicle positions. -/
theorem runActive_persists_across_polls (buffer : Int) (pass : PassInput)
    (st : RefreshState) (r : String) (k : String) (s : Service)
    (hbuilt : (k, s) ∈ passWrites buffer pass st)
    (href : s.run_ref = r) (hact : s.health.run_active = true)
    (passes : List PassInput) (later : PassInput) (k' : String) (s' : Service)
    (hbuilt' : (k', s') ∈ passWrites buffer later
        (runPasses buffer passes (runPass buffer pass st)))
    (href' : s'.run_ref = r) : s'.health.run_active = true := by
  subst href
  have h1 : s.run_ref ∈ (runPass buffer pass st).everActive :=
    passWrites_run_active_mem buffer pass hbuilt hact
  have h2 := everActive_mono_runPasses buffer passes h1
  exact passWrites_run_active_of_everActive buffer later h2 hbuilt' href'

/-- Witness for C9: run r1 is built active in the first pass, and the
departure on r1 in a later pass that saw no vehicle positions is still
built active. -/
theorem runActive_persists_across_polls_witness :
    ((mkId 13067 188 22875 0,
        buildService Fix.conn13067 120 13067 ["r1"] ["r1"] [] 0
          (Fix.dep "r1" 1000000)) ∈
      passWrites 120 Fix.passR1Active Fix.stEmpty) ∧
    ((mkId 13067 188 22875 0,
        buildService Fix.conn13067 120 13067 []
          (runPasses 120 [] (runPass 120 Fix.passR1Active Fix.stEmpty)).everActive [] 0
          (Fix.dep "r1" 4000000)) ∈
      passWrites 120 Fix.passR1Quiet
        (runPasses 120 [] (runPass 120 Fix.passR1Active Fix.stEmpty))) ∧
    (buildService Fix.conn13067 120 13067 []
        (runPasses 120 [] (runPass 120 Fix.passR1Active Fix.stEmpty)).everActive [] 0
        (Fix.dep "r1" 4000000)).health.run_active = true :=
  ⟨by decide, by decide,
    runActive_persists_across_polls 120 Fix.passR1Active Fix.stEmpty "r1"
      (mkId 13067 188 22875 0)
      (buildService Fix.conn13067 120 13067 ["r1"] ["r1"] [] 0 (Fix.dep "r1" 1000000))
      (by decide) (by decide) (by decide) [] Fix.passR1Quiet
      (mkId 13067 188 22875 0)
      (buildService Fix.conn13067 120 13067 []
        (runPasses 120 [] (runPass 120 Fix.passR1Active Fix.stEmpty)).everActive [] 0
        (Fix.dep "r1" 4000000))
      (by decide) (by decide)⟩

/-! ## C6: refresh scheduler re-entrancy -/

/-- C6 counterexample: from the initial state with no refresh in flight, two
interval firings with no completion in between (the situation when a
refresh outlasts the 30 s period) reach a state with two refresh batches
concurrently in flight, which the claim says is unreachable. -/
theorem overlapping_refreshes_reachable :
    schedRun [SchedEvent.timerFire, SchedEvent.timerFire] 0 = some 2 := by
  decide

/-- C6 (amended): the refresh loop set up by
`setInterval(checkRoutes, 30000, services)` has no re-entrancy guard: an
interval firing starts a new `checkRoutes` invocation unconditionally,
whatever the number of invocations still in flight, so a state with two
concurrent refresh batches is reachable whenever a refresh outlasts the
interval period. -/
theorem timer_starts_refresh_unconditionally (n : Nat) :
    schedStep n SchedEvent.timerFire = some (n + 1) := by
  cases n <;> rfl

/-! ## C10: health score bounds -/

/-- C10: the renderer's health score — the count of true flags among the
three health booleans — is always at most 3, hence always a valid index
into the four-element legend, so every rendered row has a defined health
symbol. -/
theorem healthScore_bounds (h : Health) :
    healthScore h ≤ 3 ∧ healthScore h < legend.length ∧
      (legend.get? (healthScore h)).isSome = true := by
  obtain ⟨a, b, c⟩ := h
  cases a <;> cases b <;> cases c <;> exact ⟨by decide, by decide, by decide⟩

/-! ## C4: the tick loop's visible list -/

/-- C4: the list the tick loop renders is sorted ascending by arrive_by and
contains exactly the table's Services whose time remaining to get going has
not fallen below minus the buffer — equivalently it excludes exactly the
Services with `now − getGoingBy > buffer` (milliseconds, buffer given in
seconds). -/
theorem tick_list_sorted_filtered (services : ServiceTable) (now : Millis)
    (buffer : Int) :
    (updateTable services now buffer).Pairwise (fun a b => a.arrive_by ≤ b.arrive_by) ∧
    ∀ s : Service, s ∈ updateTable services now buffer ↔
      s ∈ services.map Prod.snd ∧ ¬now - s.get_going_by > buffer * 1000 := by
  constructor
  · have hs := @List.sorted_mergeSort Service
      (fun a b => decide (a.arrive_by ≤ b.arrive_by))
      (fun a b c hab hbc => by
        simp only [decide_eq_true_eq] at hab hbc ⊢
        exact le_trans hab hbc)
      (fun a b => by
        simp only [Bool.or_eq_true, decide_eq_true_eq]
        exact le_total _ _)
      (services.map Prod.snd)
    have hs2 : ((services.map Prod.snd).mergeSort
        (fun a b => decide (a.arrive_by ≤ b.arrive_by))).Pairwise
        (fun a b : Service => a.arrive_by ≤ b.arrive_by) :=
      hs.imp (fun h => by simpa using h)
    simp only [updateTable]
    exact hs2.filter _
  · intro s
    simp only [updateTable, List.mem_filter, List.mem_mergeSort,
      Bool.not_eq_true', decide_eq_false_iff_not]
    constructor
    · rintro ⟨hmem, hkeep⟩
      refine ⟨hmem, ?_⟩
      push_neg at hkeep ⊢
      linarith
    · rintro ⟨hmem, hkeep⟩
      refine ⟨hmem, ?_⟩
      push_neg at hkeep ⊢
      linarith

/-! ## C5: deadline computation -/

/-- C5: for every departure, with departureTime the estimated instant when
present and otherwise the scheduled instant, the built Service has
`getGoingBy = departureTime − walkBefore·1000 − buffer·1000` and
`arriveBy = departureTime + avg·1000 + walkAfter·1000`, where walkBefore
and walkAfter are the connection's walking seconds for the forward
direction's origin and destination stops; an absent estimate selects the
scheduled fallback and is never an error (hasEstimated merely records it). -/
theorem deadlines_formula (connection : Connection) (buffer : Int)
    (routeId : Nat) (activeRunRefs everActive : List String)
    (disruptions : List Disruption) (index : Nat) (departure : Departure)
    (wb wa : Nat)
    (hwb : connection.walking.lookup connection.forward_direction.origin = some wb)
    (hwa : connection.walking.lookup connection.forward_direction.destination = some wa) :
    (buildService connection buffer routeId activeRunRefs everActive disruptions
        index departure).get_going_by =
      (match departure.estimated_departure_utc with
        | some t => t
        | none => departure.scheduled_departure_utc) - (wb : Int) * 1000 - buffer * 1000 ∧
    (buildService connection buffer routeId activeRunRefs everActive disruptions
        index departure).arrive_by =
      (match departure.estimated_departure_utc with
        | some t => t
        | none => departure.scheduled_departure_utc) +
        (connection.duration.avg : Int) * 1000 + (wa : Int) * 1000 ∧
    (buildService connection buffer routeId activeRunRefs everActive disruptions
        index departure).health.has_estimated = departure.estimated_departure_utc.isSome := by
  refine ⟨?_, ?_, ?_⟩ <;> simp [buildService, hwb, hwa]

/-- Witness for C5 at the worked example of spec section 8: scheduled
08:00:00, no estimate, walk before 300 s, buffer 120 s, average 600 s,
walk after 430 s. -/
theorem deadlines_formula_witness :
    Fix.connSpec.walking.lookup Fix.connSpec.forward_direction.origin = some 300 ∧
    Fix.connSpec.walking.lookup Fix.connSpec.forward_direction.destination = some 430 ∧
    ((buildService Fix.connSpec 120 1 [] [] [] 0 Fix.depSpec).get_going_by =
        (match Fix.depSpec.estimated_departure_utc with
          | some t => t
          | none => Fix.depSpec.scheduled_departure_utc) - (300 : Int) * 1000 - 120 * 1000 ∧
      (buildService Fix.connSpec 120 1 [] [] [] 0 Fix.depSpec).arrive_by =
        (match Fix.depSpec.estimated_departure_utc with
          | some t => t
          | none => Fix.depSpec.scheduled_departure_utc) +
          (Fix.connSpec.duration.avg : Int) * 1000 + (430 : Int) * 1000 ∧
      (buildService Fix.connSpec 120 1 [] [] [] 0 Fix.depSpec).health.has_estimated =
        Fix.depSpec.estimated_departure_utc.isSome) :=
  ⟨by decide, by decide,
    deadlines_formula Fix.connSpec 120 1 [] [] [] 0 Fix.depSpec 300 430
      (by decide) (by decide)⟩

/-! ## C8: refreshes of distinct connections are independent -/

/-- Two character lists that differ at a common position stay different
under any pair of extensions. -/
lemma ne_append_of_diffWithin :
    ∀ {p1 p2 : List Char}, diffWithin p1 p2 = true →
      ∀ x y : List Char, p1 ++ x ≠ p2 ++ y := by
  intro p1
  induction p1 with
  | nil => intro p2 h x y; cases p2 <;> simp [diffWithin] at h
  | cons a t1 ih =>
    intro p2 h x y
    cases p2 with
    | nil => simp [diffWithin] at h
    | cons b t2 =>
      simp only [diffWithin, Bool.or_eq_true, decide_eq_true_eq] at h
      intro heq
      simp only [List.cons_append, List.cons.injEq] at heq
      rcases h with h | h
      · exact h heq.1
      · exact ih h x y heq.2

/-- A composite id's characters start with the route key part followed by
the rest of the id. -/
lemma mkId_data (r d s i : Nat) :
    (mkId r d s i).data =
      (toString r ++ "-").data ++
        (toString d ++ "-" ++ toString s ++ "-" ++ toString i).data := by
  simp [mkId, String.data_append, List.append_assoc]

/-- Composite ids whose route key parts differ at a common position are
distinct, whatever their other components. -/
lemma mkId_ne_of_diffWithin {r1 r2 : Nat}
    (h : diffWithin (toString r1 ++ "-").data (toString r2 ++ "-").data = true)
    (d1 s1 i d2 s2 j : Nat) : mkId r1 d1 s1 i ≠ mkId r2 d2 s2 j := by
  intro heq
  have hdata := congrArg String.data heq
  rw [mkId_data, mkId_data] at hdata
  exact ne_append_of_diffWithin h _ _ hdata

/-- The route key parts of any two distinct catalog routes differ at a
position inside both (no catalog key followed by a dash is a prefix of
another, dash included). -/
lemma catalog_keys_separated :
    ∀ r1 ∈ connectionsList.map Prod.fst, ∀ r2 ∈ connectionsList.map Prod.fst,
      r1 ≠ r2 →
      diffWithin (toString r1 ++ "-").data (toString r2 ++ "-").data = true := by
  decide

/-- Every key a connection iteration writes is a composite id built from
that iteration's route key, forward direction and origin stop. -/
lemma writesOf_keys (buffer : Int) (routeId : Nat) (connection : Connection)
    (runsResp : RunsResponse) (depsResp : DeparturesResponse)
    (st : RefreshState) {kv : String × Service}
    (h : kv ∈ writesOf buffer routeId connection runsResp depsResp st) :
    ∃ i, kv.1 = mkId routeId connection.forward_direction.id
        connection.forward_direction.origin i := by
  cases hd : depsResp.departures with
  | none => simp [writesOf, hd] at h
  | some deps =>
    simp only [writesOf, hd, List.mem_map] at h
    obtain ⟨p, hp, rfl⟩ := h
    exact ⟨p.1, rfl⟩

/-- C8: refreshing one catalog connection leaves every Service entry of any
other catalog connection unchanged: every id the refresh writes starts with
the refreshing connection's route key followed by a dash (first conjunct),
distinct catalog connections have separated route keys, and so every
composite id of the other connection reads back unchanged from the table
(second conjunct). -/
theorem refresh_frames_other_connections (buffer : Int)
    (e1 e2 : Nat × Connection) (h1 : e1 ∈ connectionsList)
    (h2 : e2 ∈ connectionsList) (hne : e1.1 ≠ e2.1)
    (runsResp : RunsResponse) (depsResp : DeparturesResponse)
    (st : RefreshState) (j : Nat) :
    (∀ kv ∈ writesOf buffer e1.1 e1.2 runsResp depsResp st,
        ∃ rest : List Char, kv.1.data = (toString e1.1 ++ "-").data ++ rest) ∧
    objGet (processConnection buffer e1.1 e1.2 runsResp depsResp st).services
        (mkId e2.1 e2.2.forward_direction.id e2.2.forward_direction.origin j) =
      objGet st.services
        (mkId e2.1 e2.2.forward_direction.id e2.2.forward_direction.origin j) := by
  have hdiff := catalog_keys_separated e1.1 (List.mem_map_of_mem Prod.fst h1)
    e2.1 (List.mem_map_of_mem Prod.fst h2) hne
  constructor
  · intro kv hkv
    obtain ⟨i, hk⟩ := writesOf_keys buffer e1.1 e1.2 runsResp depsResp st hkv
    exact ⟨_, by rw [hk, mkId_data]⟩
  · have hnone : lastWrite (writesOf buffer e1.1 e1.2 runsResp depsResp st)
        (mkId e2.1 e2.2.forward_direction.id e2.2.forward_direction.origin j) = none := by
      apply lastWrite_eq_none
      intro kv hkv
      obtain ⟨i, hk⟩ := writesOf_keys buffer e1.1 e1.2 runsResp depsResp st hkv
      rw [hk]
      exact mkId_ne_of_diffWithin hdiff _ _ _ _ _ _
    rw [processConnection_objGet, hnone]

/-- Witness for C8: refreshing route 4 with one departure does not touch the
slot-0 entry of route 11, starting from the empty table. -/
theorem refresh_frames_other_connections_witness :
    (Fix.entry0 ∈ connectionsList ∧ Fix.entry1 ∈ connectionsList ∧
      Fix.entry0.1 ≠ Fix.entry1.1) ∧
    ((∀ kv ∈ writesOf 120 Fix.entry0.1 Fix.entry0.2 ⟨some []⟩
          ⟨some [Fix.dep "re" 7000000], []⟩ Fix.stEmpty,
        ∃ rest : List Char, kv.1.data = (toString Fix.entry0.1 ++ "-").data ++ rest) ∧
      objGet (processConnection 120 Fix.entry0.1 Fix.entry0.2 ⟨some []⟩
          ⟨some [Fix.dep "re" 7000000], []⟩ Fix.stEmpty).services
          (mkId Fix.entry1.1 Fix.entry1.2.forward_direction.id
            Fix.entry1.2.forward_direction.origin 0) =
        objGet Fix.stEmpty.services
          (mkId Fix.entry1.1 Fix.entry1.2.forward_direction.id
            Fix.entry1.2.forward_direction.origin 0)) :=
  ⟨⟨by decide, by decide, by decide⟩,
    refresh_frames_other_connections 120 Fix.entry0 Fix.entry1 (by decide)
      (by decide) (by decide) ⟨some []⟩ ⟨some [Fix.dep "re" 7000000], []⟩
      Fix.stEmpty 0⟩

end PTV
